import Mathlib

/-!
Shallow embedding of `src/frontend/render_build_diagnostics.py`, a single
diagnostic script that probes a frontend project directory, selects an
install strategy from lockfile presence and executable availability, runs
the install and build commands, and reports the build output directory.

Filesystem state and child-process results are modelled abstractly (a
`World` record); the script's control flow, branch conditions, bounds and
exit codes are translated directly from the source.  Printing is modelled
by recording the banner-delimited section titles and the few data-bearing
prints that the specification talks about (parse error text, the `.next`
advisory note, the publish-directory listing).
-/

/-- The literal truncation marker appended by the listing loops
(`"... (truncated)"` in `ls_tree` and in the publish listing). -/
def truncMarker : String := "... (truncated)"

/-- The tuple of excluded first path segments in `ls_tree` (line 41). -/
def excludedNames : List String := ["node_modules", ".git", ".cache", "dist", "build", ".next"]

/-- One entry produced by `Path.rglob("*")`: its path relative to the
walked root, as a list of path segments (`rel.parts`), and whether it is a
directory.  Entries that are not directories are files (`p.is_file()`). -/
structure Entry where
  parts : List String
  isDir : Bool
deriving DecidableEq, Repr

/-- `str(rel)` for a relative path: segments joined with `/`. -/
def pathStr (parts : List String) : String := String.intercalate "/" parts

/-- Code-point lexicographic comparison of character lists: exactly the
order Python's `sorted` uses on the (ASCII) path strings involved here. -/
def charListLe : List Char → List Char → Bool
  | [], _ => true
  | _ :: _, [] => false
  | a :: as, b :: bs =>
    if a.toNat < b.toNat then true
    else if b.toNat < a.toNat then false
    else charListLe as bs

/-- Lexicographic comparison of strings by code points. -/
def strLe (a b : String) : Bool := charListLe a.data b.data

/-- The string order as a relation, for sorting and sortedness
statements. -/
def stringLe (a b : String) : Prop := strLe a b = true

instance : DecidableRel stringLe := fun a b =>
  inferInstanceAs (Decidable (strLe a b = true))

instance : IsTotal String stringLe :=
  ⟨fun a b => by
    show charListLe a.data b.data = true ∨ charListLe b.data a.data = true
    generalize a.data = as
    generalize b.data = bs
    induction as generalizing bs with
    | nil => left; rfl
    | cons x xs ih =>
      cases bs with
      | nil => right; rfl
      | cons y ys =>
        rcases Nat.lt_trichotomy x.toNat y.toNat with hxy | hxy | hxy
        · left
          rw [charListLe, if_pos hxy]
        · rcases ih ys with h | h
          · left
            rw [charListLe, if_neg (by omega), if_neg (by omega)]
            exact h
          · right
            rw [charListLe, if_neg (by omega), if_neg (by omega)]
            exact h
        · right
          rw [charListLe, if_pos hxy]⟩

instance : IsTrans String stringLe :=
  ⟨fun a b c h1 h2 => by
    show charListLe a.data c.data = true
    have h1' : charListLe a.data b.data = true := h1
    have h2' : charListLe b.data c.data = true := h2
    clear h1 h2
    suffices h : ∀ (as bs cs : List Char), charListLe as bs = true →
        charListLe bs cs = true → charListLe as cs = true from
      h a.data b.data c.data h1' h2'
    intro as
    induction as with
    | nil => exact fun _ _ _ _ => rfl
    | cons x xs ih =>
      intro bs cs h1 h2
      cases bs with
      | nil =>
        rw [charListLe] at h1
        exact absurd h1 Bool.false_ne_true
      | cons y ys =>
        cases cs with
        | nil =>
          rw [charListLe] at h2
          exact absurd h2 Bool.false_ne_true
        | cons z zs =>
          rw [charListLe] at h1 h2 ⊢
          rcases Nat.lt_trichotomy x.toNat y.toNat with hxy | hxy | hxy
          · rcases Nat.lt_trichotomy y.toNat z.toNat with hyz | hyz | hyz
            · rw [if_pos (by omega)]
            · rw [if_pos (by omega)]
            · rw [if_neg (by omega), if_pos (by omega)] at h2
              exact absurd h2 Bool.false_ne_true
          · rw [if_neg (by omega), if_neg (by omega)] at h1
            rcases Nat.lt_trichotomy y.toNat z.toNat with hyz | hyz | hyz
            · rw [if_pos (by omega)]
            · rw [if_neg (by omega), if_neg (by omega)] at h2
              rw [if_neg (by omega), if_neg (by omega)]
              exact ih ys zs h1 h2
            · rw [if_neg (by omega), if_pos (by omega)] at h2
              exact absurd h2 Bool.false_ne_true
          · rw [if_neg (by omega), if_pos (by omega)] at h1
            exact absurd h1 Bool.false_ne_true⟩

/-- Python's `sorted` on `Path` objects that share a common root compares
the path strings, which (all full paths sharing the root prefix) is the
lexicographic order of the relative path strings. -/
def entryLe (a b : Entry) : Prop := stringLe (pathStr a.parts) (pathStr b.parts)

instance : DecidableRel entryLe := fun a b =>
  inferInstanceAs (Decidable (strLe (pathStr a.parts) (pathStr b.parts) = true))

instance : IsTotal Entry entryLe :=
  ⟨fun a b => by
    unfold entryLe
    exact IsTotal.total _ _⟩

instance : IsTrans Entry entryLe :=
  ⟨fun a b c h1 h2 => by
    unfold entryLe at h1 h2 ⊢
    exact IsTrans.trans _ _ _ h1 h2⟩

/-- `sorted(path.rglob("*"))` (lines 39 and 156). -/
def sortEntries (l : List Entry) : List Entry := List.insertionSort entryLe l

/-- `sorted(...)` on name strings (line 77: `sorted(ROOT.iterdir())`
followed by `.name`; names in one directory sort like their paths). -/
def sortStrings (l : List String) : List String := List.insertionSort stringLe l

/-- The skip test on line 41: `rel.parts and rel.parts[0] in (...)`. -/
def excludedFirstSegment (e : Entry) : Bool :=
  match e.parts with
  | [] => false
  | h :: _ => excludedNames.contains h

/-- An entry that `ls_tree` keeps: not under an excluded first segment
(line 41) and not a directory (line 43). -/
def keepEntry (e : Entry) : Bool := !excludedFirstSegment e && !e.isDir

/-- The relative path strings of all entries `ls_tree` would keep, in the
order given. -/
def lsFiles (l : List Entry) : List String :=
  (l.filter keepEntry).map (fun e => pathStr e.parts)

/-- The loop body of `ls_tree` (lines 39-48): skip excluded first
segments, skip directories, append the path, and once the accumulated
count reaches `maxE` append the truncation marker and stop. -/
def lsTreeLoop (maxE : Nat) : List Entry → List String → List String
  | [], acc => acc
  | e :: rest, acc =>
    if excludedFirstSegment e then lsTreeLoop maxE rest acc
    else if e.isDir then lsTreeLoop maxE rest acc
    else
      let acc2 := acc ++ [pathStr e.parts]
      if maxE ≤ acc2.length then acc2 ++ [truncMarker]
      else lsTreeLoop maxE rest acc2

/-- `ls_tree(path)` (lines 37-49) with its default bound
`max_entries=250`: the list of lines it prints (one per entry). -/
def ls_tree (input : List Entry) : List String :=
  lsTreeLoop 250 (sortEntries input) []

/-- The relative path strings of the files (non-directories) among the
entries, in the order given; no exclusion filter, matching the publish
listing loop. -/
def pubFiles (l : List Entry) : List String :=
  (l.filter (fun e => !e.isDir)).map (fun e => pathStr e.parts)

/-- The publish-directory listing loop (lines 155-161): append each file,
and check the bound on every iteration (the check sits outside the
`is_file` test), appending the marker and stopping once the count reaches
`maxN`. -/
def publishLoop (maxN : Nat) : List Entry → List String → List String
  | [], acc => acc
  | e :: rest, acc =>
    let acc2 := if e.isDir then acc else acc ++ [pathStr e.parts]
    if maxN ≤ acc2.length then acc2 ++ [truncMarker]
    else publishLoop maxN rest acc2

/-- The lines of the publish-directory listing for the given directory
contents, with the literal bound 120 from line 159. -/
def publishListingOf (entries : List Entry) : List String :=
  publishLoop 120 (sortEntries entries) []

/-- Line 77: `[p.name for p in sorted(ROOT.iterdir())][:80]` — the sorted
top-level names, silently sliced to the first 80. -/
def topLevelListing (names : List String) : List String :=
  (sortStrings names).take 80

/-- The install-strategy selection of `main` (lines 111-122), over the
three lockfile-existence booleans and the availability of the `pnpm` and
`yarn` executables. -/
def selectStrategy (has_pnpm has_npm has_yarn whichPnpm whichYarn : Bool) :
    List String × List String :=
  if has_pnpm && whichPnpm then
    (["pnpm", "install", "--frozen-lockfile"], ["pnpm", "run", "build"])
  else if has_yarn && whichYarn then
    (["yarn", "install", "--frozen-lockfile"], ["yarn", "build"])
  else
    ((if has_npm then ["npm", "ci"] else ["npm", "install"]), ["npm", "run", "build"])

/-- The same decision written from the specification's precedence table
(spec section 4.4), to be compared against `selectStrategy`:
1. pnpm lockfile and pnpm available: frozen-lockfile pnpm install, pnpm build script;
2. else yarn lockfile and yarn available: frozen-lockfile yarn install, yarn build script;
3. else npm clean install when the npm lockfile exists, otherwise plain
npm install, with the npm build script. -/
def installStrategySpec (pnpmLock npmLock yarnLock pnpmAvail yarnAvail : Bool) :
    List String × List String :=
  if pnpmLock && pnpmAvail then
    (["pnpm", "install", "--frozen-lockfile"], ["pnpm", "run", "build"])
  else if yarnLock && yarnAvail then
    (["yarn", "install", "--frozen-lockfile"], ["yarn", "build"])
  else
    ((if npmLock then ["npm", "ci"] else ["npm", "install"]), ["npm", "run", "build"])

/-- Result of one call to `run` (lines 17-31): either the script was
terminated by `sys.exit(returncode)` after the failure banner, or the
pair `(returncode, stdout)` was returned to the caller. -/
inductive RunOutcome
| terminated (banner : String) (code : Int)
| returned (code : Int) (output : String)
deriving DecidableEq, Repr

/-- The failure banner printed on line 29. -/
def failBanner (cmd : List String) (code : Int) : String :=
  "!! Command failed (exit=" ++ toString code ++ "): " ++ String.intercalate " " cmd

/-- `run(cmd, check=...)`: the child's exit code and captured combined
output are supplied by the environment as `res`.  When `check` holds and
the exit code is non-zero, the banner is printed and the whole run exits
with that code (lines 28-30); otherwise the pair is returned (line 31). -/
def runModel (cmd : List String) (res : Int × String) (check : Bool) : RunOutcome :=
  if check = true ∧ res.1 ≠ 0 then RunOutcome.terminated (failBanner cmd res.1) res.1
  else RunOutcome.returned res.1 res.2

/-- The manifest fields the script reads on lines 94-97. -/
structure ManifestObj where
  name : Option String
  type : Option String
  engines : Option String
  scripts : List (String × String)
deriving DecidableEq, Repr

/-- Result of `json.loads` on a manifest that parsed: either a JSON
object, or some other top-level JSON value (list, string, number, ...),
on which `pkg.get` would raise `AttributeError`. -/
inductive PkgJson
| obj (m : ManifestObj)
| nonObj (desc : String)
deriving DecidableEq, Repr

/-- How the whole script terminates: `exited c` is `sys.exit(c)` or
normal completion with code 0; `uncaughtError` is a Python exception that
escapes `main` (the interpreter prints a traceback and exits abnormally,
not through any `sys.exit` in the script). -/
inductive Outcome
| exited (code : Int)
| uncaughtError (desc : String)
deriving DecidableEq, Repr

/-- The abstract environment `main` runs against: filesystem facts,
executable availability, the parse result of `package.json`, and the exit
code and output of each external command the script may spawn. -/
structure World where
  rootExists : Bool
  topNames : List String
  rootEntries : List Entry
  pkgExists : Bool
  pkgParse : Except String PkgJson
  has_pnpm : Bool
  has_npm : Bool
  has_yarn : Bool
  whichPnpm : Bool
  whichYarn : Bool
  installResult : Int × String
  buildResult : Int × String
  exDir : String → Bool
  isDir : String → Bool
  publishEntries : String → List Entry

/-- Observable trace of one execution of `main`: the banner section
titles printed by `hr`, the data-bearing prints the specification talks
about, which external steps were invoked, and how the process ended. -/
structure MainTrace where
  sections : List String
  topListing : Option (List String)
  treeListing : Option (List String)
  summaryPrinted : Bool
  parseErrorPrinted : Option String
  installRan : Bool
  buildRan : Bool
  nextNote : Bool
  publishDir : Option String
  publishListing : Option (List String)
  publishPrint : Option String
  outcome : Outcome

/-- The `hr` titles printed before the first branch of `main`
(lines 52, 60, 73). -/
def sanitySections : List String :=
  ["RENDER FRONTEND BUILD DIAGNOSTICS", "CHECK TOOLING AVAILABILITY",
   "FRONTEND DIRECTORY CONTENTS (SANITY)"]

/-- A trace with the given sections and all later observations still at
their initial values. -/
def traceBase (sections : List String) : MainTrace :=
  { sections := sections, topListing := none, treeListing := none,
    summaryPrinted := false, parseErrorPrinted := none, installRan := false,
    buildRan := false, nextNote := false, publishDir := none,
    publishListing := none, publishPrint := none, outcome := Outcome.exited 0 }

/-- Lines 154-165: list the chosen publish directory (bounded to 120 with
a truncation marker), printing the empty-output placeholder when no file
was collected, then the SUCCESS banner; `main` then returns and the
process exits 0. -/
def publishAndFinish (w : World) (t : MainTrace) (dir : String) : MainTrace :=
  let listing := publishListingOf (w.publishEntries dir)
  { t with sections := t.sections ++ ["PUBLISH DIRECTORY LISTING (TOP)", "SUCCESS"],
           publishDir := some dir,
           publishListing := some listing,
           publishPrint := some (if listing = [] then "(empty output dir)"
                                 else String.intercalate "\n" listing),
           outcome := Outcome.exited 0 }

/-- Lines 133-151: collect the existing candidate output directories in
the fixed order `dist`, `build`, `.next`; publish `dist` first, else
`build`; otherwise print the `.next` advisory when `.next` was found and
exit 5. -/
def locateOutput (w : World) (t0 : MainTrace) : MainTrace :=
  let t := { t0 with sections := t0.sections ++ ["LOCATE BUILD OUTPUT"] }
  let found := ["dist", "build", ".next"].filter (fun c => w.exDir c && w.isDir c)
  if "dist" ∈ found then publishAndFinish w t "dist"
  else if "build" ∈ found then publishAndFinish w t "build"
  else
    { t with nextNote := decide (".next" ∈ found), outcome := Outcome.exited 5 }

/-- Lines 100-131: print the selected strategy, run the installer and
then the build, both with `check=True`, so a non-zero child exit
terminates the run with that code; on success continue to the output
locator. -/
def installBuildAndLocate (w : World) (t0 : MainTrace) : MainTrace :=
  let strat := selectStrategy w.has_pnpm w.has_npm w.has_yarn w.whichPnpm w.whichYarn
  let t := { t0 with sections := t0.sections ++ ["DETERMINE INSTALL STRATEGY", "INSTALL DEPENDENCIES"],
                     installRan := true }
  match runModel strat.1 w.installResult true with
  | RunOutcome.terminated _ code => { t with outcome := Outcome.exited code }
  | RunOutcome.returned _ _ =>
    let t2 := { t with sections := t.sections ++ ["RUN BUILD"], buildRan := true }
    match runModel strat.2 w.buildResult true with
    | RunOutcome.terminated _ code => { t2 with outcome := Outcome.exited code }
    | RunOutcome.returned _ _ => locateOutput w t2

/-- The whole of `main` (lines 51-165).  The environment and tooling
reports (lines 53-71) only print; the four optional version checks call
`run` with `check=False`, which never terminates the run (see
`runModel`), so they leave no trace here. -/
def mainModel (w : World) : MainTrace :=
  if w.rootExists = false then
    { traceBase sanitySections with outcome := Outcome.exited 2 }
  else
    let t1 := { traceBase sanitySections with
                topListing := some (topLevelListing w.topNames),
                treeListing := some (ls_tree w.rootEntries) }
    if w.pkgExists = false then
      { t1 with sections := t1.sections ++ ["ERROR"], outcome := Outcome.exited 3 }
    else
      let t2 := { t1 with sections := t1.sections ++ ["PACKAGE.JSON SUMMARY"] }
      match w.pkgParse with
      | Except.error e => { t2 with parseErrorPrinted := some e, outcome := Outcome.exited 4 }
      | Except.ok (PkgJson.nonObj _) =>
          { t2 with outcome := Outcome.uncaughtError "AttributeError" }
      | Except.ok (PkgJson.obj _) =>
          installBuildAndLocate w { t2 with summaryPrinted := true }

/-! Concrete inputs used to instantiate the theorems below. -/

/-- The decimal digit character for `n < 10`. -/
def digitChar (n : Nat) : Char := Char.ofNat (48 + n)

/-- A three-digit zero-padded decimal rendering of `n < 1000`; these
strings sort lexicographically in numeric order. -/
def pad3 (n : Nat) : String :=
  String.mk [digitChar (n / 100), digitChar (n / 10 % 10), digitChar (n % 10)]

/-- A directory of exactly 250 plain files `f000 .. f249`, none excluded. -/
def lsEx250 : List Entry :=
  (List.range 250).map (fun i => { parts := ["f" ++ pad3 i], isDir := false })

/-- A small directory: two files, one file inside `node_modules`, and one
directory entry. -/
def lsExSmall : List Entry :=
  [{ parts := ["b.txt"], isDir := false },
   { parts := ["node_modules", "x.js"], isDir := false },
   { parts := ["a.txt"], isDir := false },
   { parts := ["sub"], isDir := true }]

/-- 81 distinct top-level names `n000 .. n080`. -/
def names81 : List String := (List.range 81).map (fun i => "n" ++ pad3 i)

/-- A manifest object with no declared fields. -/
def emptyManifest : ManifestObj :=
  { name := none, type := none, engines := none, scripts := [] }

/-- A world in which every stage succeeds: the manifest parses to an
object, install and build exit 0, and `dist` exists with one file. -/
def okWorld : World :=
  { rootExists := true
    topNames := ["package.json"]
    rootEntries := [{ parts := ["package.json"], isDir := false }]
    pkgExists := true
    pkgParse := Except.ok (PkgJson.obj emptyManifest)
    has_pnpm := false
    has_npm := true
    has_yarn := false
    whichPnpm := false
    whichYarn := false
    installResult := (0, "")
    buildResult := (0, "")
    exDir := fun c => c == "dist"
    isDir := fun c => c == "dist"
    publishEntries := fun _ => [{ parts := ["index.html"], isDir := false }] }

/-- Successful install and build, but only `.next` exists as output. -/
def nextOnlyWorld : World :=
  { okWorld with exDir := fun c => c == ".next", isDir := fun c => c == ".next" }

/-- A world whose manifest is present but fails to parse. -/
def parseErrWorld : World :=
  { okWorld with pkgParse := Except.error "Expecting value: line 1 column 1 (char 0)" }

/-- A world with no `package.json` under the root. -/
def noPkgWorld : World :=
  { okWorld with pkgExists := false, pkgParse := Except.error "unused" }

/-- A world whose manifest is valid JSON but a list, not an object. -/
def nonObjWorld : World :=
  { okWorld with pkgParse := Except.ok (PkgJson.nonObj "list") }

/-- A world whose manifest parses fine but whose install step exits 4. -/
def install4World : World :=
  { okWorld with installResult := (4, "npm err") }

/-- A world whose `dist` directory holds exactly three files. -/
def dist3World : World :=
  { okWorld with
    publishEntries := fun _ =>
      [{ parts := ["index.html"], isDir := false },
       { parts := ["assets"], isDir := true },
       { parts := ["assets", "app.js"], isDir := false },
       { parts := ["assets", "app.css"], isDir := false }] }

/-- A world whose `dist` directory holds a subdirectory but no files. -/
def emptyDistWorld : World :=
  { okWorld with publishEntries := fun _ => [{ parts := ["assets"], isDir := true }] }

/-! Loop characterizations and order lemmas. -/

/-- Characterization of the `ls_tree` loop: starting below the bound, it
returns all kept paths when they fit strictly below the bound, and
otherwise the first `maxE` of them followed by the truncation marker. -/
theorem lsTreeLoop_spec (maxE : Nat) (l : List Entry) :
    ∀ acc : List String, acc.length < maxE →
      lsTreeLoop maxE l acc =
        if acc.length + (lsFiles l).length < maxE then acc ++ lsFiles l
        else (acc ++ lsFiles l).take maxE ++ [truncMarker] := by
  induction l with
  | nil =>
    intro acc h
    simp [lsTreeLoop, lsFiles, h]
  | cons e rest ih =>
    intro acc h
    by_cases h1 : excludedFirstSegment e = true
    · have hk : keepEntry e = false := by simp [keepEntry, h1]
      have hf : lsFiles (e :: rest) = lsFiles rest := by
        simp [lsFiles, List.filter_cons, hk]
      rw [lsTreeLoop, if_pos h1, hf, ih acc h]
    · by_cases h2 : e.isDir = true
      · have hk : keepEntry e = false := by simp [keepEntry, h2]
        have hf : lsFiles (e :: rest) = lsFiles rest := by
          simp [lsFiles, List.filter_cons, hk]
        rw [lsTreeLoop, if_neg (by simpa using h1), if_pos h2, hf, ih acc h]
      · have hk : keepEntry e = true := by
          simp [keepEntry, Bool.not_eq_true] at h1 h2 ⊢
          simp [h1, h2]
        have hf : lsFiles (e :: rest) = pathStr e.parts :: lsFiles rest := by
          simp [lsFiles, List.filter_cons, hk]
        rw [lsTreeLoop, if_neg (by simpa using h1), if_neg (by simpa using h2)]
        simp only []
        by_cases h3 : maxE ≤ (acc ++ [pathStr e.parts]).length
        · rw [if_pos h3]
          have hlen : (acc ++ [pathStr e.parts]).length = maxE := by
            simp at h3 ⊢
            omega
          have hcond : ¬ (acc.length + (lsFiles (e :: rest)).length < maxE) := by
            rw [hf]
            simp at hlen ⊢
            omega
          rw [if_neg hcond, hf]
          have : acc ++ pathStr e.parts :: lsFiles rest =
              (acc ++ [pathStr e.parts]) ++ lsFiles rest := by simp
          rw [this, List.take_left' hlen]
        · rw [if_neg h3]
          have hlt : (acc ++ [pathStr e.parts]).length < maxE := by omega
          rw [ih _ hlt, hf]
          have happ : (acc ++ [pathStr e.parts]) ++ lsFiles rest =
              acc ++ pathStr e.parts :: lsFiles rest := by simp
          have hlen2 : (acc ++ [pathStr e.parts]).length + (lsFiles rest).length =
              acc.length + (pathStr e.parts :: lsFiles rest).length := by
            simp
            omega
          rw [happ, hlen2]

/-- The printed `ls_tree` listing, closed form. -/
theorem ls_tree_eq (input : List Entry) :
    ls_tree input =
      if (lsFiles (sortEntries input)).length < 250 then lsFiles (sortEntries input)
      else (lsFiles (sortEntries input)).take 250 ++ [truncMarker] := by
  have h := lsTreeLoop_spec 250 (sortEntries input) [] (by simp)
  simpa [ls_tree] using h

/-- Characterization of the publish-listing loop, in the same shape. -/
theorem publishLoop_spec (maxN : Nat) (l : List Entry) :
    ∀ acc : List String, acc.length < maxN →
      publishLoop maxN l acc =
        if acc.length + (pubFiles l).length < maxN then acc ++ pubFiles l
        else (acc ++ pubFiles l).take maxN ++ [truncMarker] := by
  induction l with
  | nil =>
    intro acc h
    simp [publishLoop, pubFiles, h]
  | cons e rest ih =>
    intro acc h
    by_cases h2 : e.isDir = true
    · have hf : pubFiles (e :: rest) = pubFiles rest := by
        simp [pubFiles, List.filter_cons, h2]
      rw [publishLoop, if_pos h2, if_neg (show ¬ maxN ≤ acc.length by omega), hf, ih acc h]
    · have hf : pubFiles (e :: rest) = pathStr e.parts :: pubFiles rest := by
        simp [pubFiles, List.filter_cons, h2]
      rw [publishLoop, if_neg h2]
      by_cases h3 : maxN ≤ (acc ++ [pathStr e.parts]).length
      · rw [if_pos h3]
        have hlen : (acc ++ [pathStr e.parts]).length = maxN := by
          simp at h3 ⊢
          omega
        have hcond : ¬ (acc.length + (pubFiles (e :: rest)).length < maxN) := by
          rw [hf]
          simp at hlen ⊢
          omega
        rw [if_neg hcond, hf]
        have : acc ++ pathStr e.parts :: pubFiles rest =
            (acc ++ [pathStr e.parts]) ++ pubFiles rest := by simp
        rw [this, List.take_left' hlen]
      · rw [if_neg h3]
        have hlt : (acc ++ [pathStr e.parts]).length < maxN := by omega
        rw [ih _ hlt, hf]
        have happ : (acc ++ [pathStr e.parts]) ++ pubFiles rest =
            acc ++ pathStr e.parts :: pubFiles rest := by simp
        have hlen2 : (acc ++ [pathStr e.parts]).length + (pubFiles rest).length =
            acc.length + (pathStr e.parts :: pubFiles rest).length := by
          simp
          omega
        rw [happ, hlen2]

/-- The publish-directory listing, closed form. -/
theorem publishListingOf_eq (entries : List Entry) :
    publishListingOf entries =
      if (pubFiles (sortEntries entries)).length < 120 then pubFiles (sortEntries entries)
      else (pubFiles (sortEntries entries)).take 120 ++ [truncMarker] := by
  have h := publishLoop_spec 120 (sortEntries entries) [] (by simp)
  simpa [publishListingOf] using h

/-- Mapping path strings over any filter of the sorted entries yields a
lexicographically sorted list of strings. -/
theorem sorted_mapped_filter (p : Entry → Bool) (l : List Entry) :
    List.Sorted stringLe (((sortEntries l).filter p).map (fun e => pathStr e.parts)) := by
  have hs : List.Sorted entryLe (sortEntries l) := List.sorted_insertionSort entryLe l
  have hf : List.Pairwise entryLe ((sortEntries l).filter p) := hs.filter p
  exact List.pairwise_map.mpr (hf.imp (fun h => h))

/-- Every entry of the sorted list comes from the input list. -/
theorem mem_of_mem_sortEntries {e : Entry} {l : List Entry} (h : e ∈ sortEntries l) :
    e ∈ l :=
  (List.perm_insertionSort entryLe l).subset h

/-! Stage reduction lemmas for `mainModel`. -/

/-- When the root exists, the manifest exists and parses to an object,
`main` proceeds to the install phase with the summary printed. -/
theorem mainModel_stage (w : World) (m : ManifestObj)
    (hroot : w.rootExists = true) (hpkg : w.pkgExists = true)
    (hparse : w.pkgParse = Except.ok (PkgJson.obj m)) :
    mainModel w =
      installBuildAndLocate w
        { traceBase sanitySections with
          topListing := some (topLevelListing w.topNames),
          treeListing := some (ls_tree w.rootEntries),
          sections := sanitySections ++ ["PACKAGE.JSON SUMMARY"],
          summaryPrinted := true } := by
  obtain ⟨re, tn, rents, pe, pp, hp, hn, hy, wp, wy, ir, br, ed, idir, pubE⟩ := w
  subst hroot
  subst hpkg
  subst hparse
  rfl

/-- With both external steps exiting 0, the install phase reaches the
output locator. -/
theorem installBuildAndLocate_ok (w : World) (t : MainTrace)
    (hi : w.installResult.1 = 0) (hb : w.buildResult.1 = 0) :
    installBuildAndLocate w t =
      locateOutput w
        { t with sections := t.sections ++ ["DETERMINE INSTALL STRATEGY", "INSTALL DEPENDENCIES"] ++ ["RUN BUILD"],
                 installRan := true, buildRan := true } := by
  have h1 : runModel (selectStrategy w.has_pnpm w.has_npm w.has_yarn w.whichPnpm w.whichYarn).1
      w.installResult true = RunOutcome.returned w.installResult.1 w.installResult.2 := by
    rw [runModel]
    exact if_neg (fun hc => hc.2 hi)
  have h2 : runModel (selectStrategy w.has_pnpm w.has_npm w.has_yarn w.whichPnpm w.whichYarn).2
      w.buildResult true = RunOutcome.returned w.buildResult.1 w.buildResult.2 := by
    rw [runModel]
    exact if_neg (fun hc => hc.2 hb)
  simp only [installBuildAndLocate, h1, h2]

/-- When `dist` exists as a directory, the locator publishes `dist`. -/
theorem locateOutput_dist (w : World) (t : MainTrace)
    (h : (w.exDir "dist" && w.isDir "dist") = true) :
    locateOutput w t =
      publishAndFinish w { t with sections := t.sections ++ ["LOCATE BUILD OUTPUT"] } "dist" := by
  have hmem : "dist" ∈ List.filter (fun c => w.exDir c && w.isDir c) ["dist", "build", ".next"] :=
    List.mem_filter.mpr ⟨by decide, h⟩
  simp only [locateOutput]
  rw [if_pos hmem]

/-- When `dist` is absent but `build` exists as a directory, the locator
publishes `build`. -/
theorem locateOutput_build (w : World) (t : MainTrace)
    (hd : (w.exDir "dist" && w.isDir "dist") = false)
    (hb : (w.exDir "build" && w.isDir "build") = true) :
    locateOutput w t =
      publishAndFinish w { t with sections := t.sections ++ ["LOCATE BUILD OUTPUT"] } "build" := by
  have hnd : ¬ ("dist" ∈ List.filter (fun c => w.exDir c && w.isDir c) ["dist", "build", ".next"]) := by
    intro hm
    have h2 := (List.mem_filter.mp hm).2
    rw [hd] at h2
    exact Bool.false_ne_true h2
  have hmem : "build" ∈ List.filter (fun c => w.exDir c && w.isDir c) ["dist", "build", ".next"] :=
    List.mem_filter.mpr ⟨by decide, hb⟩
  simp only [locateOutput]
  rw [if_neg hnd, if_pos hmem]

/-- When neither `dist` nor `build` exists as a directory, the locator
prints the `.next` note exactly when `.next` exists as a directory and
exits 5. -/
theorem locateOutput_none (w : World) (t : MainTrace)
    (hd : (w.exDir "dist" && w.isDir "dist") = false)
    (hb : (w.exDir "build" && w.isDir "build") = false) :
    locateOutput w t =
      { t with sections := t.sections ++ ["LOCATE BUILD OUTPUT"],
               nextNote := (w.exDir ".next" && w.isDir ".next"),
               outcome := Outcome.exited 5 } := by
  have hnd : ¬ ("dist" ∈ List.filter (fun c => w.exDir c && w.isDir c) ["dist", "build", ".next"]) := by
    intro hm
    have h2 := (List.mem_filter.mp hm).2
    rw [hd] at h2
    exact Bool.false_ne_true h2
  have hnb : ¬ ("build" ∈ List.filter (fun c => w.exDir c && w.isDir c) ["dist", "build", ".next"]) := by
    intro hm
    have h2 := (List.mem_filter.mp hm).2
    rw [hb] at h2
    exact Bool.false_ne_true h2
  have hdec : decide (".next" ∈ List.filter (fun c => w.exDir c && w.isDir c) ["dist", "build", ".next"])
      = (w.exDir ".next" && w.isDir ".next") := by
    by_cases hn : (w.exDir ".next" && w.isDir ".next") = true
    · rw [hn, decide_eq_true_eq]
      exact List.mem_filter.mpr ⟨by decide, hn⟩
    · have hn' : (w.exDir ".next" && w.isDir ".next") = false := by simpa using hn
      rw [hn', decide_eq_false_iff_not]
      intro hm
      exact hn ((List.mem_filter.mp hm).2)
  simp only [locateOutput]
  rw [if_neg hnd, if_neg hnb, hdec]

/-- Publishing never touches the install flag. -/
theorem locateOutput_installRan (w : World) (t : MainTrace) :
    (locateOutput w t).installRan = t.installRan := by
  simp only [locateOutput]
  split
  · rfl
  · split
    · rfl
    · rfl

/-- Once the install phase starts, every resulting trace records that the
installer was invoked. -/
theorem installBuildAndLocate_installRan (w : World) (t : MainTrace) :
    (installBuildAndLocate w t).installRan = true := by
  simp only [installBuildAndLocate]
  split
  · rfl
  · split
    · rfl
    · rw [locateOutput_installRan]

/-! Claim theorems. -/

/-- C1: for every combination of the three lockfile-existence booleans
and the availability of `pnpm` and `yarn`, the install-strategy selector
returns exactly the installer/build pair dictated by the spec's
precedence table, first match winning; in particular, with both the pnpm
and yarn lockfiles present and pnpm available, the pnpm pair is chosen. -/
theorem c1_install_strategy (a b c d e : Bool) :
    selectStrategy a b c d e = installStrategySpec a b c d e
    ∧ selectStrategy true b true true e =
        (["pnpm", "install", "--frozen-lockfile"], ["pnpm", "run", "build"]) := by
  constructor
  · cases a <;> cases b <;> cases c <;> cases d <;> cases e <;> rfl
  · rfl

/-- C4: with fail-fast enabled and a non-zero child exit code, `run`
prints the failure banner naming the command and code and terminates the
run with that same code; with fail-fast disabled (or a zero exit code) it
returns the (exit code, output) pair to the caller. -/
theorem c4_run_executor (cmd : List String) (code : Int) (output : String) :
    (code ≠ 0 → runModel cmd (code, output) true =
        RunOutcome.terminated (failBanner cmd code) code)
    ∧ (code = 0 → runModel cmd (code, output) true = RunOutcome.returned code output)
    ∧ runModel cmd (code, output) false = RunOutcome.returned code output := by
  refine ⟨fun h => ?_, fun h => ?_, ?_⟩
  · rw [runModel]
    exact if_pos ⟨rfl, h⟩
  · rw [runModel]
    exact if_neg (fun hc => hc.2 h)
  · rw [runModel]
    exact if_neg (fun hc => Bool.false_ne_true hc.1)

/-- C4 witness: a failing command under fail-fast terminates with its
code, and the same result is handed back when fail-fast is off. -/
theorem c4_witness :
    runModel ["npm", "ci"] (7, "boom") true =
      RunOutcome.terminated (failBanner ["npm", "ci"] 7) 7
    ∧ runModel ["npm", "ci"] (7, "boom") false = RunOutcome.returned 7 "boom" :=
  ⟨(c4_run_executor ["npm", "ci"] 7 "boom").1 (by decide),
   (c4_run_executor ["npm", "ci"] 7 "boom").2.2⟩

set_option maxRecDepth 20000 in
/-- C5 counterexample: a directory with exactly 250 non-excluded files —
within the claimed bound — still gets the truncation marker appended,
refuting "the marker is appended only when truncation occurred". -/
theorem c5_counterexample :
    (lsFiles (sortEntries lsEx250)).length = 250 ∧ truncMarker ∈ ls_tree lsEx250 := by
  have hlen : (lsFiles (sortEntries lsEx250)).length = 250 := by decide
  refine ⟨hlen, ?_⟩
  rw [ls_tree_eq, if_neg (by rw [hlen]; omega)]
  exact List.mem_append_right _ (by simp)

/-- C5 (amended): the listing truncates at exactly 250 entries, but the
marker is appended as soon as the count of non-excluded files reaches
250 — also when exactly 250 exist and nothing was cut off; for at most
249 such files, all of them are listed and no marker is appended. -/
theorem c5_truncation_amended (input : List Entry) :
    ((lsFiles (sortEntries input)).length < 250 →
        ls_tree input = lsFiles (sortEntries input))
    ∧ (250 ≤ (lsFiles (sortEntries input)).length →
        ls_tree input = (lsFiles (sortEntries input)).take 250 ++ [truncMarker]) := by
  constructor
  · intro h
    rw [ls_tree_eq, if_pos h]
  · intro h
    rw [ls_tree_eq, if_neg (by omega)]

/-- C5 witness: a small directory is listed in full with no marker. -/
theorem c5_witness : ls_tree lsExSmall = ["a.txt", "b.txt"] := by
  have h := (c5_truncation_amended lsExSmall).1 (by decide)
  rw [h]
  rfl

/-- C8 counterexample: with 81 top-level names the listing keeps only 80
and appends no truncation marker, refuting the claimed marker. -/
theorem c8_counterexample :
    names81.length = 81 ∧ (topLevelListing names81).length = 80
    ∧ truncMarker ∉ topLevelListing names81 := by
  refine ⟨rfl, rfl, ?_⟩
  decide

/-- C8 (amended): the top-level listing is bounded to 80 names and is
sorted, but when the bound is exceeded the excess names are silently
dropped — no truncation marker is ever appended; when at most 80 entries
exist, all of them are listed. -/
theorem c8_top_level_amended (names : List String) :
    (topLevelListing names).length ≤ 80
    ∧ List.Sorted stringLe (topLevelListing names)
    ∧ (truncMarker ∉ names → truncMarker ∉ topLevelListing names)
    ∧ (names.length ≤ 80 → topLevelListing names = sortStrings names) := by
  refine ⟨?_, ?_, ?_, ?_⟩
  · rw [topLevelListing, List.length_take]
    exact min_le_left _ _
  · have hs : List.Sorted stringLe (sortStrings names) :=
      List.sorted_insertionSort stringLe names
    exact hs.sublist (List.take_sublist _ _)
  · intro hnm hmem
    exact hnm (by
      have : truncMarker ∈ sortStrings names := List.take_subset _ _ hmem
      exact (List.mem_insertionSort stringLe).mp this)
  · intro h
    rw [topLevelListing]
    exact List.take_of_length_le (by rw [sortStrings, List.length_insertionSort]; exact h)

/-- C8 witness: two names are listed in full, sorted, with no marker. -/
theorem c8_witness : topLevelListing ["b", "a"] = ["a", "b"] := by
  have h := (c8_top_level_amended ["b", "a"]).2.2.2 (by decide)
  rw [h]
  rfl

/-- C6: for every input directory, the recursive listing contains (apart
from the truncation marker) only paths of non-directory entries of the
input whose first path segment is not excluded, and the listed paths are
in code-point lexicographic order. -/
theorem c6_excluded_and_sorted (input : List Entry) :
    (∀ s ∈ ls_tree input, s = truncMarker ∨
        ∃ e, e ∈ input ∧ excludedFirstSegment e = false ∧ e.isDir = false ∧ s = pathStr e.parts)
    ∧ List.Sorted stringLe ((ls_tree input).filter (fun s => s != truncMarker)) := by
  have hmemfile : ∀ s ∈ lsFiles (sortEntries input),
      ∃ e, e ∈ input ∧ excludedFirstSegment e = false ∧ e.isDir = false ∧ s = pathStr e.parts := by
    intro s hs
    rw [lsFiles] at hs
    rcases List.mem_map.mp hs with ⟨e, he, hfe⟩
    rcases List.mem_filter.mp he with ⟨hmem, hkeep⟩
    have hex : excludedFirstSegment e = false ∧ e.isDir = false := by
      simp [keepEntry] at hkeep
      exact hkeep
    exact ⟨e, mem_of_mem_sortEntries hmem, hex.1, hex.2, hfe.symm⟩
  have hsorted : List.Sorted stringLe (lsFiles (sortEntries input)) :=
    sorted_mapped_filter keepEntry input
  rw [ls_tree_eq]
  by_cases hlen : (lsFiles (sortEntries input)).length < 250
  · rw [if_pos hlen]
    constructor
    · intro s hs
      exact Or.inr (hmemfile s hs)
    · exact hsorted.filter _
  · rw [if_neg hlen]
    constructor
    · intro s hs
      rcases List.mem_append.mp hs with h | h
      · exact Or.inr (hmemfile s (List.take_subset _ _ h))
      · left
        simpa using h
    · rw [List.filter_append]
      have hm : List.filter (fun s => s != truncMarker) [truncMarker] = [] := by decide
      rw [hm, List.append_nil]
      exact (hsorted.sublist (List.take_sublist _ _)).filter _

/-- C6 witness: the listing of the small mixed directory is sorted once
the marker is removed. -/
theorem c6_witness :
    List.Sorted stringLe ((ls_tree lsExSmall).filter (fun s => s != truncMarker)) :=
  (c6_excluded_and_sorted lsExSmall).2

/-- C2: after a successful build, `dist` is preferred, then `build`; with
neither present as a directory the run exits 5, prints no publish
listing section, never selects `.next`, and prints the `.next` advisory
note exactly when `.next` exists as a directory. -/
theorem c2_build_output_locator (w : World) (m : ManifestObj)
    (hroot : w.rootExists = true) (hpkg : w.pkgExists = true)
    (hparse : w.pkgParse = Except.ok (PkgJson.obj m))
    (hi : w.installResult.1 = 0) (hb : w.buildResult.1 = 0) :
    ((w.exDir "dist" && w.isDir "dist") = true →
        (mainModel w).publishDir = some "dist" ∧ (mainModel w).outcome = Outcome.exited 0)
    ∧ ((w.exDir "dist" && w.isDir "dist") = false →
        (w.exDir "build" && w.isDir "build") = true →
        (mainModel w).publishDir = some "build" ∧ (mainModel w).outcome = Outcome.exited 0)
    ∧ ((w.exDir "dist" && w.isDir "dist") = false →
        (w.exDir "build" && w.isDir "build") = false →
        (mainModel w).outcome = Outcome.exited 5
        ∧ (mainModel w).publishDir = none
        ∧ (mainModel w).publishListing = none
        ∧ "PUBLISH DIRECTORY LISTING (TOP)" ∉ (mainModel w).sections
        ∧ (mainModel w).nextNote = (w.exDir ".next" && w.isDir ".next"))
    ∧ (mainModel w).publishDir ≠ some ".next" := by
  rw [mainModel_stage w m hroot hpkg hparse, installBuildAndLocate_ok w _ hi hb]
  refine ⟨fun hd => ?_, fun hd hbu => ?_, fun hd hbu => ?_, ?_⟩
  · rw [locateOutput_dist w _ hd]
    exact ⟨rfl, rfl⟩
  · rw [locateOutput_build w _ hd hbu]
    exact ⟨rfl, rfl⟩
  · rw [locateOutput_none w _ hd hbu]
    refine ⟨rfl, rfl, rfl, ?_, rfl⟩
    show "PUBLISH DIRECTORY LISTING (TOP)" ∉
      sanitySections ++ ["PACKAGE.JSON SUMMARY"]
        ++ ["DETERMINE INSTALL STRATEGY", "INSTALL DEPENDENCIES"] ++ ["RUN BUILD"]
        ++ ["LOCATE BUILD OUTPUT"]
    decide
  · have hne : ("dist" : String) ≠ ".next" := by decide
    have hne2 : ("build" : String) ≠ ".next" := by decide
    by_cases hd : (w.exDir "dist" && w.isDir "dist") = true
    · rw [locateOutput_dist w _ hd]
      intro hc
      have hc' : (some "dist" : Option String) = some ".next" := hc
      exact hne (Option.some.inj hc')
    · have hd' : (w.exDir "dist" && w.isDir "dist") = false := by simpa using hd
      by_cases hbu : (w.exDir "build" && w.isDir "build") = true
      · rw [locateOutput_build w _ hd' hbu]
        intro hc
        have hc' : (some "build" : Option String) = some ".next" := hc
        exact hne2 (Option.some.inj hc')
      · have hbu' : (w.exDir "build" && w.isDir "build") = false := by simpa using hbu
        rw [locateOutput_none w _ hd' hbu']
        intro hc
        have hc' : (none : Option String) = some ".next" := hc
        exact Option.noConfusion hc'

/-- C2 witness: with only `.next` present the run exits 5, the advisory
note is printed, and no publish listing section appears. -/
theorem c2_witness :
    (mainModel nextOnlyWorld).outcome = Outcome.exited 5
    ∧ (mainModel nextOnlyWorld).nextNote = true
    ∧ "PUBLISH DIRECTORY LISTING (TOP)" ∉ (mainModel nextOnlyWorld).sections := by
  have h := (c2_build_output_locator nextOnlyWorld emptyManifest rfl rfl rfl rfl rfl).2.2.1
    (by decide) (by decide)
  refine ⟨h.1, ?_, h.2.2.2.1⟩
  rw [h.2.2.2.2]
  decide

/-- C3: a missing `package.json` exits with code 3 with no parse error
printed and no install or build invoked; a manifest that fails to parse
prints the parse error description and exits with the distinct code 4,
again without invoking install or build. -/
theorem c3_manifest_errors (w : World) (hroot : w.rootExists = true) :
    (w.pkgExists = false →
        (mainModel w).outcome = Outcome.exited 3
        ∧ (mainModel w).installRan = false
        ∧ (mainModel w).buildRan = false
        ∧ (mainModel w).parseErrorPrinted = none)
    ∧ (∀ e, w.pkgExists = true → w.pkgParse = Except.error e →
        (mainModel w).outcome = Outcome.exited 4
        ∧ (mainModel w).parseErrorPrinted = some e
        ∧ (mainModel w).installRan = false
        ∧ (mainModel w).buildRan = false) := by
  obtain ⟨re, tn, rents, pe, pp, hp, hn, hy, wp, wy, ir, br, ed, idir, pubE⟩ := w
  subst hroot
  constructor
  · intro h
    subst h
    exact ⟨rfl, rfl, rfl, rfl⟩
  · intro e hpe hpp
    subst hpe
    subst hpp
    exact ⟨rfl, rfl, rfl, rfl⟩

/-- C3 witness: a missing manifest exits 3; an unparsable manifest exits
4 and prints the parse error description. -/
theorem c3_witness :
    (mainModel noPkgWorld).outcome = Outcome.exited 3
    ∧ (mainModel parseErrWorld).outcome = Outcome.exited 4
    ∧ (mainModel parseErrWorld).parseErrorPrinted =
        some "Expecting value: line 1 column 1 (char 0)" := by
  refine ⟨((c3_manifest_errors noPkgWorld rfl).1 rfl).1, ?_, ?_⟩
  · exact ((c3_manifest_errors parseErrWorld rfl).2
      "Expecting value: line 1 column 1 (char 0)" rfl rfl).1
  · exact ((c3_manifest_errors parseErrWorld rfl).2
      "Expecting value: line 1 column 1 (char 0)" rfl rfl).2.1

/-- C7: with install and build succeeding and a `dist` directory holding
exactly 3 files, the run exits 0 and the publish listing is exactly those
3 paths, relative to the publish directory, in lexicographic order, with
nothing else (in particular no truncation marker) appended. -/
theorem c7_dist_three_files (w : World) (m : ManifestObj)
    (hroot : w.rootExists = true) (hpkg : w.pkgExists = true)
    (hparse : w.pkgParse = Except.ok (PkgJson.obj m))
    (hi : w.installResult.1 = 0) (hb : w.buildResult.1 = 0)
    (hd : (w.exDir "dist" && w.isDir "dist") = true)
    (h3 : (pubFiles (sortEntries (w.publishEntries "dist"))).length = 3) :
    (mainModel w).outcome = Outcome.exited 0
    ∧ (mainModel w).publishDir = some "dist"
    ∧ (mainModel w).publishListing = some (pubFiles (sortEntries (w.publishEntries "dist")))
    ∧ List.Sorted stringLe (pubFiles (sortEntries (w.publishEntries "dist"))) := by
  rw [mainModel_stage w m hroot hpkg hparse, installBuildAndLocate_ok w _ hi hb,
    locateOutput_dist w _ hd]
  refine ⟨rfl, rfl, ?_, ?_⟩
  · show some (publishListingOf (w.publishEntries "dist")) = _
    rw [publishListingOf_eq, if_pos (by rw [h3]; omega)]
  · exact sorted_mapped_filter _ _

/-- C7 witness: the three files of `dist` are listed sorted with no
marker, and the run exits 0. -/
theorem c7_witness :
    (mainModel dist3World).outcome = Outcome.exited 0
    ∧ (mainModel dist3World).publishListing =
        some ["assets/app.css", "assets/app.js", "index.html"] := by
  have h := c7_dist_three_files dist3World emptyManifest rfl rfl rfl rfl rfl
    (by decide) (by decide)
  refine ⟨h.1, ?_⟩
  rw [h.2.2.1]
  decide

/-- C9 counterexample: the install child process exiting with code 4
makes the whole run exit 4 although the manifest parsed fine, refuting
"exit code 4 is produced only for manifest content that fails to parse". -/
theorem c9_counterexample :
    (mainModel install4World).outcome = Outcome.exited 4
    ∧ install4World.pkgParse = Except.ok (PkgJson.obj emptyManifest) := by
  exact ⟨rfl, rfl⟩

/-- C9 (amended): an exit with code 4 before the install step was ever
invoked can only come from a manifest parse failure (a child process
exiting 4 also propagates as exit code 4); and a manifest that is valid
JSON but not an object raises an uncaught `AttributeError` at the first
field access, producing neither exit code 4 nor the manifest summary and
never reaching the install step. -/
theorem c9_exit4_amended (w : World) :
    ((mainModel w).outcome = Outcome.exited 4 → (mainModel w).installRan = false →
        ∃ err, w.pkgParse = Except.error err)
    ∧ (∀ r, w.rootExists = true → w.pkgExists = true →
        w.pkgParse = Except.ok (PkgJson.nonObj r) →
        (mainModel w).outcome = Outcome.uncaughtError "AttributeError"
        ∧ (mainModel w).outcome ≠ Outcome.exited 4
        ∧ (mainModel w).summaryPrinted = false
        ∧ (mainModel w).installRan = false) := by
  obtain ⟨re, tn, rents, pe, pp, hp, hn, hy, wp, wy, ir, br, ed, idir, pubE⟩ := w
  constructor
  · intro h4 hIR
    cases re with
    | false =>
      exfalso
      have hc : Outcome.exited 2 = Outcome.exited 4 := h4
      simp at hc
    | true =>
      cases pe with
      | false =>
        exfalso
        have hc : Outcome.exited 3 = Outcome.exited 4 := h4
        simp at hc
      | true =>
        cases pp with
        | error err => exact ⟨err, rfl⟩
        | ok v =>
          cases v with
          | nonObj r =>
            exfalso
            have hc : Outcome.uncaughtError "AttributeError" = Outcome.exited 4 := h4
            exact Outcome.noConfusion hc
          | obj mm =>
            exfalso
            simp [mainModel, installBuildAndLocate_installRan] at hIR
  · intro r hre hpe hpp
    subst hre
    subst hpe
    subst hpp
    refine ⟨rfl, ?_, rfl, rfl⟩
    intro hc
    have hc' : Outcome.uncaughtError "AttributeError" = Outcome.exited 4 := hc
    exact Outcome.noConfusion hc'

/-- C9 witness: a manifest that is a JSON list raises the uncaught
exception, with no exit 4 and no summary. -/
theorem c9_witness :
    (mainModel nonObjWorld).outcome = Outcome.uncaughtError "AttributeError"
    ∧ (mainModel nonObjWorld).outcome ≠ Outcome.exited 4
    ∧ (mainModel nonObjWorld).summaryPrinted = false := by
  have h := (c9_exit4_amended nonObjWorld).2 "list" rfl rfl rfl
  exact ⟨h.1, h.2.1, h.2.2.1⟩

/-- C10: a selected publish directory containing zero files is not an
error: the empty-output placeholder is printed and the run still exits 0. -/
theorem c10_empty_publish_dir (w : World) (m : ManifestObj) (d : String)
    (hroot : w.rootExists = true) (hpkg : w.pkgExists = true)
    (hparse : w.pkgParse = Except.ok (PkgJson.obj m))
    (hi : w.installResult.1 = 0) (hb : w.buildResult.1 = 0)
    (hpub : (mainModel w).publishDir = some d)
    (hempty : pubFiles (sortEntries (w.publishEntries d)) = []) :
    (mainModel w).outcome = Outcome.exited 0
    ∧ (mainModel w).publishListing = some []
    ∧ (mainModel w).publishPrint = some "(empty output dir)" := by
  rw [mainModel_stage w m hroot hpkg hparse, installBuildAndLocate_ok w _ hi hb] at hpub ⊢
  by_cases hd : (w.exDir "dist" && w.isDir "dist") = true
  · rw [locateOutput_dist w _ hd] at hpub ⊢
    have hd' : d = "dist" := by
      have hpub' : (some "dist" : Option String) = some d := hpub
      exact (Option.some.inj hpub').symm
    subst hd'
    have hlist : publishListingOf (w.publishEntries "dist") = [] := by
      rw [publishListingOf_eq, if_pos (by rw [hempty]; decide)]
      exact hempty
    refine ⟨rfl, ?_, ?_⟩
    · show some (publishListingOf (w.publishEntries "dist")) = some []
      rw [hlist]
    · show some (if publishListingOf (w.publishEntries "dist") = [] then "(empty output dir)"
          else String.intercalate "\n" (publishListingOf (w.publishEntries "dist"))) = _
      rw [hlist]
      rfl
  · have hd' : (w.exDir "dist" && w.isDir "dist") = false := by simpa using hd
    by_cases hbu : (w.exDir "build" && w.isDir "build") = true
    · rw [locateOutput_build w _ hd' hbu] at hpub ⊢
      have hb' : d = "build" := by
        have hpub' : (some "build" : Option String) = some d := hpub
        exact (Option.some.inj hpub').symm
      subst hb'
      have hlist : publishListingOf (w.publishEntries "build") = [] := by
        rw [publishListingOf_eq, if_pos (by rw [hempty]; decide)]
        exact hempty
      refine ⟨rfl, ?_, ?_⟩
      · show some (publishListingOf (w.publishEntries "build")) = some []
        rw [hlist]
      · show some (if publishListingOf (w.publishEntries "build") = [] then "(empty output dir)"
            else String.intercalate "\n" (publishListingOf (w.publishEntries "build"))) = _
        rw [hlist]
        rfl
    · have hbu' : (w.exDir "build" && w.isDir "build") = false := by simpa using hbu
      rw [locateOutput_none w _ hd' hbu'] at hpub
      have hpub' : (none : Option String) = some d := hpub
      exact Option.noConfusion hpub'

/-- C10 witness: a `dist` holding only a subdirectory and no files still
gives exit 0 with the empty-output placeholder. -/
theorem c10_witness :
    (mainModel emptyDistWorld).outcome = Outcome.exited 0
    ∧ (mainModel emptyDistWorld).publishPrint = some "(empty output dir)" := by
  have h := c10_empty_publish_dir emptyDistWorld emptyManifest "dist" rfl rfl rfl rfl rfl
    rfl (by decide)
  exact ⟨h.1, h.2.2⟩
